import Mathlib

/-!
Verification development for the seek-auto-bot repository.

The browser session lifecycle manager lives in `utils/browser.py`
(class `BrowserManager`).  We embed it shallowly: a driver object is a
snapshot of the WebDriver attribute queries the manager performs
(`session_id`, `current_url`, `window_handles`, `title`), each of which
may either return a value or raise, which we model with `Except Unit`.
The manager's mutable fields `_driver` and `_driver_locked_in` become an
explicit state record.  The creation call
`_create_supreme_driver_sync()` may raise `BrowserError`; we model the
environment's answer to a creation attempt as an `Except Unit Driver`
oracle supplied per call.  All operations run under the manager's
reentrant lock, so concurrent calls are serialized: a set of concurrent
calls is modelled as the sequence of their lock-ordered executions.

The captcha intervention loop lives in `core/captcha_handler.py`
(class `CaptchaHandler`).  A page snapshot records, for each entry of
the `captcha_selectors` list in order, the outcome of
`driver.find_elements` for that selector together with the outcome of
each found element's `is_displayed()` call, plus the outcome of the
`driver.page_source` access.  The wait loop sleeps 2 seconds per
iteration, so poll `n` happens at elapsed time `2 * n`; detection is
treated as instantaneous.  The notification side effect and the
`intervention_active` bookkeeping do not influence the loop's control
flow and are not modelled.

The behavioral typing simulator lives in `core/anti_detection.py`
(`AntiDetection.human_type`, lines 151-193).  Per call it draws one
words-per-minute value from `self.human_typing_speed = (80, 120)`; per
character it draws one uniform variate for the cadence delay, one typo
decision (`random.random() < 0.05`), and — when the typo fires — one
wrong character.  We model these draws as oracle streams indexed by the
character position, with `random.uniform(a, b)` rendered as
`a + (b - a) * t` for a stream value `t ∈ [0, 1]`, and delays as exact
rationals.  The two short pauses inside a typo correction and the pause
right after `element.clear()` affect neither the keystroke content nor
the per-character cadence delays and carry no claim, so they are not
given streams.  `element.send_keys` calls become an explicit event list
in program order.
-/

deriving instance DecidableEq for Except

namespace SeekBot

/-- Snapshot of the WebDriver attribute queries used by `BrowserManager`.
Each field is the outcome of accessing the corresponding attribute:
`Except.error ()` models the access raising an exception. -/
structure Driver where
  sessionId : Except Unit String
  currentUrl : Except Unit String
  windowHandles : Except Unit (List String)
  title : Except Unit String
  deriving DecidableEq, Repr

/-- Mutable state of the `BrowserManager` singleton: the stored
`_driver` reference and the `_driver_locked_in` flag. -/
structure ManagerState where
  driver : Option Driver
  lockedIn : Bool
  deriving DecidableEq, Repr

/-- Embedding of `BrowserManager._is_driver_alive` (utils/browser.py
lines 76-102).  Returns `false` when no driver instance exists; then
accesses `session_id`, `current_url`, `window_handles` in order — any
raise is caught by the `except` clause and yields `false`; an empty
session id or an empty handle list yields `false`; otherwise `true`.
Note the code never tests `current_url` for emptiness, only that the
access does not raise. -/
def isDriverAlive : Option Driver → Bool
  | none => false
  | some d =>
    match d.sessionId, d.currentUrl, d.windowHandles with
    | .ok sid, .ok _url, .ok handles =>
      if sid = "" then false
      else if handles = [] then false
      else true
    | _, _, _ => false

/-- Embedding of `BrowserManager._get_driver_internal` (utils/browser.py
lines 53-72), the body of `get_driver` / `get_driver_sync` (Acquire).
`create` is the environment's answer to `_create_supreme_driver_sync()`
for this call.  Returns the Python return value (`Except.error` models
the propagating `BrowserError`), the post-state, and whether a creation
attempt happened during the call.  A raised creation error propagates
before either `self._driver` or `self._driver_locked_in` is assigned,
so the state is unchanged in that branch. -/
def getDriverInternal (create : Except Unit Driver) (s : ManagerState) :
    Except Unit (Option Driver) × ManagerState × Bool :=
  if s.lockedIn then
    if isDriverAlive s.driver then (.ok s.driver, s, false)
    else (.ok none, s, false)
  else if isDriverAlive s.driver then
    (.ok s.driver, { s with lockedIn := true }, false)
  else
    match create with
    | .ok d => (.ok (some d), { driver := some d, lockedIn := true }, true)
    | .error e => (.error e, s, true)

/-- Embedding of `BrowserManager._destroy_driver_internal`
(utils/browser.py lines 226-237).  When a driver is stored, `quit()` is
attempted and `self._driver = None` runs on both the normal path and the
`except` path, so the reference is cleared in every case; the
`_driver_locked_in` flag is never touched. -/
def destroyDriverInternal (s : ManagerState) : ManagerState :=
  match s.driver with
  | none => s
  | some _ => { s with driver := none }

/-- Embedding of `BrowserManager.recover_driver` (utils/browser.py lines
269-275): `destroy_driver()` followed by `get_driver()`, returning the
acquired value.  The code never resets `_driver_locked_in`. -/
def recoverDriver (create : Except Unit Driver) (s : ManagerState) :
    Except Unit (Option Driver) × ManagerState × Bool :=
  getDriverInternal create (destroyDriverInternal s)

/-- Lock-serialized execution of a sequence of Acquire calls, one
creation oracle per call.  Returns the list of per-call results, the
final state, and the total number of creation attempts. -/
def acquireSeq : List (Except Unit Driver) → ManagerState →
    List (Except Unit (Option Driver)) × ManagerState × Nat
  | [], s => ([], s, 0)
  | c :: cs, s =>
    let r := getDriverInternal c s
    let rest := acquireSeq cs r.2.1
    (r.1 :: rest.1, rest.2.1, (if r.2.2 then 1 else 0) + rest.2.2)

/-- Fixture: a driver whose every attribute query succeeds, with a
non-empty session id and one open tab at `https://example.test`. -/
def liveDriver : Driver :=
  ⟨.ok "sess1", .ok "https://example.test", .ok ["tab1"], .ok "Example"⟩

/-- Fixture: a second distinct live driver. -/
def liveDriver2 : Driver :=
  ⟨.ok "sess2", .ok "https://example.test/2", .ok ["tab2"], .ok "Example2"⟩

/-- Fixture: a driver whose every attribute query raises, so the health
probe reports it dead. -/
def deadDriver : Driver := ⟨.error (), .error (), .error (), .error ()⟩

/-- Fixture: a driver whose three probe queries all succeed but whose
`current_url` value is the empty string. -/
def emptyUrlDriver : Driver := ⟨.ok "sess3", .ok "", .ok ["tab3"], .ok "T"⟩

/-- Definition following the spec's words for the probe (the refinement
target, deliberately NOT translated from the source): alive exactly when
all three queries succeed and none returns an empty or missing result —
non-empty identifier, non-empty navigation target, non-empty tab set. -/
def specProbeAlive (d : Driver) : Bool :=
  match d.sessionId, d.currentUrl, d.windowHandles with
  | .ok sid, .ok url, .ok hs =>
    !(sid = "") && !(url = "") && !(decide (hs = []))
  | _, _, _ => false

/-- Status payload as returned by `get_supreme_status` (utils/browser.py
lines 240-266): one record covering the three dict shapes, with `none`
standing for keys absent from a given shape. -/
structure StatusPayload where
  status : String
  alive : Bool
  sessionId : Option String
  currentUrl : Option String
  title : Option String
  windowHandles : Option Nat
  hasError : Bool
  message : String
  deriving DecidableEq, Repr

/-- Payload returned when no living driver is under control. -/
def noDriverPayload : StatusPayload :=
  ⟨"NO_DRIVER", false, none, none, none, none, false,
    "No living driver under overlord control"⟩

/-- Payload returned for a healthy driver. -/
def activePayload (sid url t : String) (tabs : Nat) : StatusPayload :=
  ⟨"SUPREME_DRIVER_ACTIVE", true, some sid, some url, some t, some tabs,
    false, "Supreme driver serving faithfully"⟩

/-- Payload returned when an exception escapes the status computation's
body and is caught by its `except` clause. -/
def errorPayload : StatusPayload :=
  ⟨"ERROR", false, none, none, none, none, true,
    "Error checking supreme driver status"⟩

/-- Embedding of `BrowserManager.get_supreme_status` (utils/browser.py
lines 240-266).  Under the lock: if the probe reports no living driver,
the NO_DRIVER payload; otherwise the active payload built from the
`session_id`, `current_url`, `title` and `window_handles` accesses — any
of which raising is caught by the surrounding `except` and converted to
the ERROR payload. -/
def getSupremeStatus (od : Option Driver) : StatusPayload :=
  if isDriverAlive od = false then noDriverPayload
  else
    match od with
    | none => noDriverPayload
    | some d =>
      match d.sessionId, d.currentUrl, d.title, d.windowHandles with
      | .ok sid, .ok url, .ok t, .ok hs => activePayload sid url t hs.length
      | _, _, _, _ => errorPayload

/-- DOM element as seen by the captcha handler: the outcome of its
`is_displayed()` call. -/
structure PageElement where
  isDisplayed : Except Unit Bool
  deriving DecidableEq, Repr

/-- Page snapshot at one poll: per-selector `find_elements` outcomes (in
the order of `captcha_selectors`) and the `page_source` access
outcome. -/
structure Page where
  selectorResults : List (Except Unit (List PageElement))
  pageSource : Except Unit String
  deriving DecidableEq, Repr

/-- Inner element loop of `detect_captcha` for one selector: returns
`.ok true` when a displayed element is found, `.ok false` when none is,
and `.error ()` when an `is_displayed()` call raises before a displayed
element is found (the per-selector `except` then moves to the next
selector). -/
def scanElements : List PageElement → Except Unit Bool
  | [] => .ok false
  | e :: es =>
    match e.isDisplayed with
    | .error u => .error u
    | .ok true => .ok true
    | .ok false => scanElements es

/-- Outcome of one selector in `detect_captcha`: a raising
`find_elements` or a raising `is_displayed()` is caught by the
per-selector `except ... continue`, counting as no detection. -/
def checkSelector : Except Unit (List PageElement) → Bool
  | .error _ => false
  | .ok es =>
    match scanElements es with
    | .ok b => b
    | .error _ => false

/-- Keyword list scanned against the lowered page source
(core/captcha_handler.py lines 91-97). -/
def captchaKeywords : List String :=
  ["recaptcha", "hcaptcha", "i\x27m not a robot", "verify you are human",
    "prove you\x27re not a robot"]

/-- Char-list version of `startswith`. -/
def listStartsWith : List Char → List Char → Bool
  | _, [] => true
  | [], _ :: _ => false
  | a :: as, b :: bs => a == b && listStartsWith as bs

/-- Char-list version of the Python `in` substring test. -/
def listContainsSub : List Char → List Char → Bool
  | [], needle => needle.isEmpty
  | a :: as, needle =>
    listStartsWith (a :: as) needle || listContainsSub as needle

/-- Embedding of `CaptchaHandler.detect_captcha` (core/captcha_handler.py
lines 70-108): scan every selector (per-selector errors skipped), then
search the lowered page source for captcha keywords; any exception that
escapes — in particular a raising `page_source` access — is caught by
the outer `except` and yields `False` (not detected). -/
def detectCaptcha (p : Page) : Bool :=
  if p.selectorResults.any checkSelector then true
  else
    match p.pageSource with
    | .error _ => false
    | .ok src =>
      captchaKeywords.any fun k =>
        listContainsSub (src.toList.map Char.toLower) k.toList

/-- Fuel-indexed embedding of the `while` loop of
`CaptchaHandler.wait_for_captcha_solution` (core/captcha_handler.py
lines 133-155).  `n` is the poll index, so the loop guard
`time.time() - start_time < timeout` reads `2 * n < timeout`; a poll
finding no captcha returns success with the poll index, and guard
failure returns the timeout failure. -/
def waitGo (pages : Nat → Page) (timeout : Nat) : Nat → Nat → Bool × Nat
  | 0, n => (false, n)
  | fuel + 1, n =>
    if 2 * n < timeout then
      if detectCaptcha (pages n) then waitGo pages timeout fuel (n + 1)
      else (true, n)
    else (false, n)

/-- Embedding of `CaptchaHandler.wait_for_captcha_solution`: run the
poll loop from poll 0.  A fuel of `timeout` polls always suffices, since
the guard fails once `2 * n ≥ timeout`.  Returns the Python return value
together with the number of completed polls (elapsed time is twice
that). -/
def waitForCaptchaSolution (pages : Nat → Page) (timeout : Nat) :
    Bool × Nat :=
  waitGo pages timeout timeout 0

/-- Fixture: a page whose first selector query finds one displayed
element, so detection reports a captcha. -/
def pageCaptcha : Page := ⟨[.ok [⟨.ok true⟩]], .ok ""⟩

/-- Fixture: a page with no selector hits and no keywords, so detection
reports no captcha. -/
def pageClear : Page := ⟨[], .ok ""⟩

/-- Randomness consumed by one `human_type` call. -/
structure TypingOracle where
  wpm : Nat
  mainT : Nat → ℚ
  typoFire : Nat → Bool
  wrongChar : Nat → Char

/-- Validity of the oracle: what the random library guarantees.
`random.randint(80, 120)` lies in `[80, 120]` and the uniform variates
lie in `[0, 1]`. -/
def OracleValid (o : TypingOracle) : Prop :=
  80 ≤ o.wpm ∧ o.wpm ≤ 120 ∧ ∀ i, 0 ≤ o.mainT i ∧ o.mainT i ≤ 1

/-- One keystroke handed to `element.send_keys`: a character or the
BACKSPACE key. -/
inductive KeyEvent where
  | key : Char → KeyEvent
  | backspace : KeyEvent
  deriving DecidableEq, Repr

/-- Punctuation set of the `char in '.,!?'` test. -/
def punctChars : List Char := ['.', ',', '!', '?']

/-- Configured words-per-minute range
(`self.human_typing_speed = (80, 120)`). -/
def wpmRange : Nat × Nat := (80, 120)

/-- Decision that a typo is injected at position `i` for character `c`:
the random draw fired and the character is alphabetic. -/
def typoAt (o : TypingOracle) (i : Nat) (c : Char) : Bool :=
  o.typoFire i && c.isAlpha

/-- Keystrokes emitted for the character at position `i`: the intended
character is always sent first; when the typo fires, the wrong
character, a BACKSPACE, and the intended character again follow. -/
def charEvents (o : TypingOracle) (i : Nat) (c : Char) : List KeyEvent :=
  .key c ::
    (if typoAt o i c then [.key (o.wrongChar i), .backspace, .key c] else [])

/-- Cadence delay after the character at position `i`: a space pauses
`uniform(0.1, 0.3)`, punctuation pauses `uniform(0.2, 0.4)`, and any
other character waits `base_delay * uniform(0.5, 1.5)` where
`base_delay = 1 / chars_per_second = 60 / (wpm * 5) = 12 / wpm`. -/
def charDelay (o : TypingOracle) (i : Nat) (c : Char) : ℚ :=
  if c = ' ' then 1/10 + (1/5) * o.mainT i
  else if c ∈ punctChars then 1/5 + (1/5) * o.mainT i
  else (12 / (o.wpm : ℚ)) * (1/2 + o.mainT i)

/-- Keystroke sequence of `human_type` from position `n` on. -/
def humanTypeEvents (o : TypingOracle) : Nat → List Char → List KeyEvent
  | _, [] => []
  | n, c :: cs => charEvents o n c ++ humanTypeEvents o (n + 1) cs

/-- Per-character cadence delays of `human_type` from position `n` on,
index-aligned with the input text. -/
def humanTypeDelays (o : TypingOracle) : Nat → List Char → List ℚ
  | _, [] => []
  | n, c :: cs => charDelay o n c :: humanTypeDelays o (n + 1) cs

/-- Class-wise delay bounds: the regular-character bounds are derived
from the configured words-per-minute range (`0.5 * 12/120` up to
`1.5 * 12/80`), while spaces and punctuation get the longer fixed pause
ranges of their dedicated branches. -/
def delayBounds (c : Char) (d : ℚ) : Prop :=
  if c = ' ' then 1/10 ≤ d ∧ d ≤ 3/10
  else if c ∈ punctChars then 1/5 ≤ d ∧ d ≤ 2/5
  else (1/2) * (12 / (wpmRange.2 : ℚ)) ≤ d ∧
    d ≤ (3/2) * (12 / (wpmRange.1 : ℚ))

/-- Fixture: an oracle with mid-range draws whose typo decision always
fires. -/
def oracleEx : TypingOracle :=
  ⟨100, fun _ => 1/2, fun _ => true, fun _ => 'x'⟩

/-- Net text an input field holds after a keystroke sequence: a
character appends, BACKSPACE removes the last character. -/
def applyKeys : List Char → List KeyEvent → List Char
  | acc, [] => acc
  | acc, .key c :: es => applyKeys (acc ++ [c]) es
  | acc, .backspace :: es => applyKeys acc.dropLast es

/-- Net field content of the character at position `i` after resolving
its possible typo correction: the wrong keystroke is erased by the
BACKSPACE, but the intended character — already sent before the wrong
one — survives, and the correction sends it a second time. -/
def netChar (o : TypingOracle) (i : Nat) (c : Char) : List Char :=
  if typoAt o i c then [c, c] else [c]

/-- Net field content of the whole input from position `n` on. -/
def netFlat (o : TypingOracle) : Nat → List Char → List Char
  | _, [] => []
  | n, c :: cs => netChar o n c ++ netFlat o (n + 1) cs

/-- Net field content produced by one `human_type` call. -/
def netKeystrokes (o : TypingOracle) (text : List Char) : List Char :=
  applyKeys [] (humanTypeEvents o 0 text)

/-- Acquire on a locked-in state whose probe result is `alive` leaves the
state unchanged, attempts no creation, and returns the stored driver
when alive, `none` when dead. -/
theorem getDriverInternal_lockedIn (create : Except Unit Driver)
    (s : ManagerState) (h : s.lockedIn = true) :
    getDriverInternal create s =
      (.ok (if isDriverAlive s.driver then s.driver else none), s, false) := by
  unfold getDriverInternal
  rw [h]
  by_cases ha : isDriverAlive s.driver <;> simp [ha]

/-- Acquire sequences on a locked-in state with a live driver return the
stored driver every time, never create, and leave the state fixed. -/
theorem acquireSeq_lockedIn_alive (cs : List (Except Unit Driver))
    (s : ManagerState) (h : s.lockedIn = true)
    (ha : isDriverAlive s.driver = true) :
    acquireSeq cs s = (List.replicate cs.length (.ok s.driver), s, 0) := by
  induction cs with
  | nil => rfl
  | cons c cs ih =>
    simp only [acquireSeq, getDriverInternal_lockedIn c s h, ha, if_pos, ih,
      List.replicate, List.length_cons]
    simp

/-- C1: once the manager is locked-in and the stored session is found
dead by the health probe, every Acquire call in any subsequent
lock-serialized sequence (no Recover intervening) returns no session
handle (`Except.ok none`, the `SessionUnavailable` outcome of
`_get_driver_internal` lines 60-62), performs zero creation attempts,
and leaves the manager state unchanged. -/
theorem lockedIn_dead_acquire_unavailable (cs : List (Except Unit Driver))
    (s : ManagerState) (h : s.lockedIn = true)
    (hd : isDriverAlive s.driver = false) :
    acquireSeq cs s = (List.replicate cs.length (.ok none), s, 0) := by
  induction cs with
  | nil => rfl
  | cons c cs ih =>
    simp only [acquireSeq, getDriverInternal_lockedIn c s h, hd,
      Bool.false_eq_true, if_false, ih, List.length_cons]
    simp [List.replicate]

/-- Witness for C1: a locked-in manager holding a dead driver answers two
further Acquire calls (one of which could even create successfully) with
no handle, no creation, and an unchanged state. -/
theorem lockedIn_dead_acquire_unavailable_witness :
    acquireSeq [Except.ok liveDriver, Except.error ()]
        ⟨some deadDriver, true⟩ =
      (List.replicate 2 (Except.ok none), ⟨some deadDriver, true⟩, 0) :=
  lockedIn_dead_acquire_unavailable [Except.ok liveDriver, Except.error ()]
    ⟨some deadDriver, true⟩ rfl rfl

/-- C2 counterexample: starting from the initial state (no driver, not
locked in), a failed creation raises and leaves the manager NOT
locked-in, and the very next Acquire call retries creation and succeeds
— contradicting the claim that a creation failure leaves the manager
locked-in with every further Acquire returning `SessionUnavailable`. -/
theorem creationFailure_retries_counterexample :
    (getDriverInternal (.error ()) ⟨none, false⟩ =
      (.error (), ⟨none, false⟩, true)) ∧
    (getDriverInternal (.ok liveDriver) ⟨none, false⟩ =
      (.ok (some liveDriver), ⟨some liveDriver, true⟩, true)) ∧
    (⟨none, false⟩ : ManagerState).lockedIn = false := by
  refine ⟨rfl, ?_, rfl⟩
  rfl

/-- C2 (amended): if driver creation fails during Acquire from a
not-locked-in state with no live driver, the call raises the creation
error (`BrowserError`) and leaves the state unchanged — in particular
NOT locked-in — and a subsequent Acquire call with a successful creation
retries creation and returns the new session; the locked-in flag is set
only by a successful acquisition. -/
theorem creationFailure_leaves_not_lockedIn (s : ManagerState) (d : Driver)
    (h : s.lockedIn = false) (hd : isDriverAlive s.driver = false) :
    getDriverInternal (.error ()) s = (.error (), s, true) ∧
    getDriverInternal (.ok d) s =
      (.ok (some d), ⟨some d, true⟩, true) := by
  unfold getDriverInternal
  rw [h, hd]
  simp

/-- Witness for the amended C2 at the initial manager state. -/
theorem creationFailure_leaves_not_lockedIn_witness :
    getDriverInternal (.error ()) ⟨none, false⟩ =
      (.error (), ⟨none, false⟩, true) ∧
    getDriverInternal (.ok liveDriver) ⟨none, false⟩ =
      (.ok (some liveDriver), ⟨some liveDriver, true⟩, true) :=
  creationFailure_leaves_not_lockedIn ⟨none, false⟩ liveDriver rfl rfl

/-- C3 (code bug): in a locked-in state, `recover_driver` destroys the
stored driver but then `get_driver` returns `None` — no replacement
session is created even though the creation oracle stands ready with a
fresh healthy driver — because `recover_driver` (lines 269-275) never
resets `_driver_locked_in`, contradicting the documented contract that
Recover() is the sanctioned path that yields a new healthy session. -/
theorem recover_lockedIn_yields_no_session :
    recoverDriver (.ok liveDriver2) ⟨some liveDriver, true⟩ =
      (.ok none, ⟨none, true⟩, false) ∧
    isDriverAlive (some liveDriver2) = true := by
  exact ⟨rfl, rfl⟩

/-- C4: concurrent Acquire calls contend on the manager's single
reentrant lock, so any set of concurrent calls executes as a
lock-serialized sequence. From the initial state (no session, not
locked in), if the first call's creation succeeds with a probe-live
driver, then exactly one creation attempt occurs in the whole sequence
and every call — the blocked concurrent callers included — returns that
same single session. -/
theorem firstAcquire_creates_once_all_same (d : Driver)
    (cs : List (Except Unit Driver)) (hd : isDriverAlive (some d) = true) :
    acquireSeq (.ok d :: cs) ⟨none, false⟩ =
      (List.replicate (cs.length + 1) (.ok (some d)),
        ⟨some d, true⟩, 1) := by
  have h1 : getDriverInternal (.ok d) ⟨none, false⟩ =
      (.ok (some d), ⟨some d, true⟩, true) := rfl
  have h2 := acquireSeq_lockedIn_alive cs ⟨some d, true⟩ rfl hd
  simp only [acquireSeq, h1, h2, List.replicate_succ]
  simp

/-- Witness for C4: three serialized Acquire calls from the initial
state with a live first creation all return the same session and perform
exactly one creation. -/
theorem firstAcquire_creates_once_all_same_witness :
    acquireSeq [Except.ok liveDriver, Except.ok liveDriver2, Except.error ()]
        ⟨none, false⟩ =
      (List.replicate 3 (Except.ok (some liveDriver)),
        ⟨some liveDriver, true⟩, 1) :=
  firstAcquire_creates_once_all_same liveDriver
    [Except.ok liveDriver2, Except.error ()] rfl

/-- C8: Destroy clears the stored driver reference — on both the normal
path and the exception path of `quit()` — and leaves the locked-in flag
exactly as it was, in every manager state. -/
theorem destroy_clears_driver_preserves_lockedIn (s : ManagerState) :
    (destroyDriverInternal s).driver = none ∧
    (destroyDriverInternal s).lockedIn = s.lockedIn := by
  cases s with
  | mk d l => cases d <;> simp [destroyDriverInternal]

/-- Characterization of the health probe on a present driver: it reports
alive exactly when the `session_id` access succeeds with a non-empty id,
the `current_url` access succeeds (its value is not inspected), and the
`window_handles` access succeeds with a non-empty list. -/
theorem isDriverAlive_some_iff (d : Driver) :
    isDriverAlive (some d) = true ↔
      (∃ sid, d.sessionId = .ok sid ∧ sid ≠ "") ∧
      (∃ url, d.currentUrl = .ok url) ∧
      (∃ hs, d.windowHandles = .ok hs ∧ hs ≠ []) := by
  obtain ⟨sid, url, hs, t⟩ := d
  cases sid <;> cases url <;> cases hs <;> simp only [isDriverAlive] <;>
    simp

/-- C5 counterexample: a driver whose `current_url` query succeeds with
the empty string is reported alive by `_is_driver_alive` even though the
claim ("any query ... returning an empty/missing result yields
alive = false") demands alive = false for it. -/
theorem probe_emptyUrl_counterexample :
    isDriverAlive (some emptyUrlDriver) = true ∧
    specProbeAlive emptyUrlDriver = false ∧
    emptyUrlDriver.currentUrl = .ok "" := ⟨rfl, rfl, rfl⟩

/-- C5 (amended): the probe reports alive exactly when all three queries
succeed without raising, the identifier is non-empty and the tab set is
non-empty; an empty navigation-target value does NOT yield alive = false
— only a raising `current_url` access does. The probe is a total
function of the driver snapshot (it never throws past its boundary:
every raising query is translated into `alive = false`), and being pure
it is idempotent and mutates neither the tab set nor the URL. -/
theorem probe_alive_characterization (d : Driver) :
    isDriverAlive (some d) = true ↔
      (∃ sid, d.sessionId = .ok sid ∧ sid ≠ "") ∧
      (∃ url, d.currentUrl = .ok url) ∧
      (∃ hs, d.windowHandles = .ok hs ∧ hs ≠ []) :=
  isDriverAlive_some_iff d

/-- C7: Status() is total on every manager state — a snapshot is always
returned, never an exception.  When the probe reports the session dead
or absent the snapshot is the unavailable payload with alive = false;
when an internal query (the `title` access) raises during the status
computation the snapshot still has alive = false; when the session is
healthy and all queries succeed the snapshot reports alive = true
together with the session id, current URL, title and tab count; and a
snapshot claiming alive = true can only arise from a probe-live
session. -/
theorem status_total_snapshot (od : Option Driver) :
    (isDriverAlive od = false → getSupremeStatus od = noDriverPayload) ∧
    (∀ d, od = some d → d.title = .error () →
      (getSupremeStatus od).alive = false) ∧
    (∀ d sid url t hs, od = some d →
      d.sessionId = .ok sid → d.currentUrl = .ok url →
      d.title = .ok t → d.windowHandles = .ok hs →
      isDriverAlive od = true →
      getSupremeStatus od = activePayload sid url t hs.length) ∧
    ((getSupremeStatus od).alive = true → isDriverAlive od = true) := by
  refine ⟨?_, ?_, ?_, ?_⟩
  · intro h
    simp [getSupremeStatus, h]
  · rintro d rfl ht
    by_cases ha : isDriverAlive (some d) = false
    · simp [getSupremeStatus, ha, noDriverPayload]
    · have ha' : isDriverAlive (some d) = true := by
        revert ha
        cases isDriverAlive (some d) <;> simp
      obtain ⟨⟨sid, hsid, -⟩, ⟨url, hurl⟩, ⟨hs, hhs, -⟩⟩ :=
        (isDriverAlive_some_iff d).mp ha'
      simp [getSupremeStatus, ha, hsid, hurl, hhs, ht, errorPayload]
  · rintro d sid url t hs rfl hsid hurl ht hhs halive
    simp [getSupremeStatus, halive, hsid, hurl, ht, hhs]
  · intro h
    by_contra hna
    have hf : isDriverAlive od = false := by
      revert hna
      cases isDriverAlive od <;> simp
    simp [getSupremeStatus, hf, noDriverPayload] at h

/-- Witness for C7: the status snapshot of a healthy single-tab session
at `https://example.test` reports alive = true, that URL, one tab and
the session id. -/
theorem status_total_snapshot_witness :
    getSupremeStatus (some liveDriver) =
      activePayload "sess1" "https://example.test" "Example" 1 :=
  (status_total_snapshot (some liveDriver)).2.2.1 liveDriver "sess1"
    "https://example.test" "Example" ["tab1"] rfl rfl rfl rfl rfl rfl

/-- Poll loop on an always-detected challenge: it exits with failure at
the first poll index `n` with `2 * n ≥ timeout`, given enough fuel. -/
theorem waitGo_always (pages : Nat → Page) (timeout : Nat)
    (h : ∀ m, detectCaptcha (pages m) = true) :
    ∀ fuel n, timeout ≤ 2 * (n + fuel) →
      waitGo pages timeout fuel n =
        (false, max n ((timeout + 1) / 2)) := by
  intro fuel
  induction fuel with
  | zero =>
    intro n hn
    have hmax : max n ((timeout + 1) / 2) = n := by omega
    simp [waitGo, hmax]
  | succ fuel ih =>
    intro n hn
    by_cases hlt : 2 * n < timeout
    · have hstep : waitGo pages timeout (fuel + 1) n =
          waitGo pages timeout fuel (n + 1) := by
        simp [waitGo, hlt, h n]
      rw [hstep, ih (n + 1) (by omega)]
      have hmax : max (n + 1) ((timeout + 1) / 2) =
          max n ((timeout + 1) / 2) := by omega
      rw [hmax]
    · have hmax : max n ((timeout + 1) / 2) = n := by omega
      simp [waitGo, hlt, hmax]

/-- Poll loop on a challenge that clears at poll `K` within the timeout:
it exits with success at poll `K`, given enough fuel. -/
theorem waitGo_eventually (pages : Nat → Page) (timeout K : Nat)
    (h1 : ∀ m, m < K → detectCaptcha (pages m) = true)
    (h2 : detectCaptcha (pages K) = false) (h3 : 2 * K < timeout) :
    ∀ fuel n, n ≤ K → K < n + fuel →
      waitGo pages timeout fuel n = (true, K) := by
  intro fuel
  induction fuel with
  | zero => intro n h4 h5; omega
  | succ fuel ih =>
    intro n h4 h5
    by_cases hk : n = K
    · subst hk
      simp [waitGo, h3, h2]
    · have hnk : n < K := by omega
      have hlt : 2 * n < timeout := by omega
      simp only [waitGo, hlt, if_pos, h1 n hnk, if_true]
      exact ih (n + 1) (by omega) (by omega)

/-- C6: the intervention wait loop polls every 2 time units (so poll `n`
happens at elapsed time `2n`; with the default timeout of 300 the
failure exit happens at poll 150, elapsed exactly 300).  First conjunct:
a challenge present for the first `K` polls and absent at poll `K`, with
`2K` under the timeout, yields success at poll `K` — after `K` poll
intervals.  Second: an always-present challenge yields the timeout
failure exactly at the first poll whose elapsed time reaches the
timeout, not before.  Third and fourth: a raising selector query is
skipped, leaving the detection result of the remaining selectors, and a
raising page-source scan yields "not detected" for that poll cycle
rather than an exception aborting the loop. -/
theorem captcha_wait_loop_behavior (pages : Nat → Page) (K timeout : Nat) :
    ((∀ m, m < K → detectCaptcha (pages m) = true) →
      detectCaptcha (pages K) = false → 2 * K < timeout →
      waitForCaptchaSolution pages timeout = (true, K)) ∧
    ((∀ m, detectCaptcha (pages m) = true) →
      waitForCaptchaSolution pages timeout =
        (false, (timeout + 1) / 2)) ∧
    (∀ rs src, detectCaptcha ⟨Except.error () :: rs, src⟩ =
      detectCaptcha ⟨rs, src⟩) ∧
    (detectCaptcha ⟨[], Except.error ()⟩ = false) := by
  refine ⟨?_, ?_, ?_, rfl⟩
  · intro h1 h2 h3
    exact waitGo_eventually pages timeout K h1 h2 h3 timeout 0
      (by omega) (by omega)
  · intro h
    have hr := waitGo_always pages timeout h timeout 0 (by omega)
    simpa [waitForCaptchaSolution] using hr
  · intro rs src
    simp [detectCaptcha, List.any_cons, checkSelector]

/-- Witness for C6: with a challenge present only at poll 0 and a
timeout of 6, the loop succeeds at poll 1; with an always-present
challenge and the default timeout of 300, it fails at poll 150 (elapsed
exactly 300). -/
theorem captcha_wait_loop_behavior_witness :
    waitForCaptchaSolution
        (fun n => if n = 0 then pageCaptcha else pageClear) 6 = (true, 1) ∧
    waitForCaptchaSolution (fun _ => pageCaptcha) 300 = (false, 150) := by
  constructor
  · exact (captcha_wait_loop_behavior
        (fun n => if n = 0 then pageCaptcha else pageClear) 1 6).1
      (fun m hm => by
        have hm0 : m = 0 := by omega
        subst hm0
        decide)
      (by decide) (by omega)
  · exact (captcha_wait_loop_behavior (fun _ => pageCaptcha) 0 300).2.1
      (fun m => by decide)

/-- Every single cadence delay obeys its character-class bounds for a
valid oracle. -/
theorem charDelay_bounds (o : TypingOracle) (h : OracleValid o)
    (i : Nat) (c : Char) : delayBounds c (charDelay o i c) := by
  obtain ⟨hw1, hw2, hm⟩ := h
  obtain ⟨hm0, hm1⟩ := hm i
  have hw1q : (80 : ℚ) ≤ (o.wpm : ℚ) := by exact_mod_cast hw1
  have hw2q : (o.wpm : ℚ) ≤ 120 := by exact_mod_cast hw2
  have hwpos : (0 : ℚ) < (o.wpm : ℚ) := by linarith
  unfold charDelay delayBounds
  by_cases hsp : c = ' '
  · simp only [hsp, if_true]
    constructor <;> nlinarith
  · by_cases hp : c ∈ punctChars
    · simp only [hsp, hp, if_false, if_true]
      constructor <;> nlinarith
    · simp only [hsp, hp, if_false, wpmRange]
      have hqlow : (1 : ℚ)/10 ≤ 12 / (o.wpm : ℚ) := by
        rw [div_le_div_iff₀ (by norm_num) hwpos]
        linarith
      have hqhigh : 12 / (o.wpm : ℚ) ≤ 3/20 := by
        rw [div_le_div_iff₀ hwpos (by norm_num)]
        linarith
      have hqpos : (0 : ℚ) ≤ 12 / (o.wpm : ℚ) := by positivity
      constructor
      · have := mul_le_mul hqlow (by linarith : (1:ℚ)/2 ≤ 1/2 + o.mainT i)
          (by norm_num) hqpos
        norm_num at this ⊢
        linarith
      · have := mul_le_mul hqhigh (by linarith : (1:ℚ)/2 + o.mainT i ≤ 3/2)
          (by linarith) (by norm_num)
        norm_num at this ⊢
        linarith

/-- Delay list is index-aligned with the text and class-bounded
throughout. -/
theorem humanTypeDelays_bounds (o : TypingOracle) (h : OracleValid o) :
    ∀ n text, List.Forall₂ delayBounds text (humanTypeDelays o n text) := by
  intro n text
  induction text generalizing n with
  | nil => exact .nil
  | cons c cs ih =>
    exact .cons (charDelay_bounds o h n c) (ih (n + 1))

/-- Event count from any starting position is at least the remaining
text length. -/
theorem humanTypeEvents_length (o : TypingOracle) :
    ∀ n text, (text : List Char).length ≤ (humanTypeEvents o n text).length := by
  intro n text
  induction text generalizing n with
  | nil => simp [humanTypeEvents]
  | cons c cs ih =>
    have hce : 1 ≤ (charEvents o n c).length := by
      unfold charEvents
      simp
    have := ih (n + 1)
    simp only [humanTypeEvents, List.length_append, List.length_cons]
    omega

/-- C9: for every input text and every valid randomness oracle (that is,
for all random seeds), `human_type` emits at least one keystroke per
input character — typo injections add a wrong keystroke, a BACKSPACE and
a correction on top — and every per-character cadence delay lies within
its class bounds: the regular-character bounds derived from the
configured 80-120 words-per-minute range, with the longer space and
punctuation pause ranges in their branches. -/
theorem human_type_event_count_and_delays (o : TypingOracle)
    (text : List Char) (h : OracleValid o) :
    text.length ≤ (humanTypeEvents o 0 text).length ∧
    List.Forall₂ delayBounds text (humanTypeDelays o 0 text) :=
  ⟨humanTypeEvents_length o 0 text, humanTypeDelays_bounds o h 0 text⟩

/-- Witness for C9 on the spec's example input. -/
theorem human_type_event_count_and_delays_witness :
    ("ab cd".toList).length ≤
      (humanTypeEvents oracleEx 0 "ab cd".toList).length ∧
    List.Forall₂ delayBounds "ab cd".toList
      (humanTypeDelays oracleEx 0 "ab cd".toList) :=
  human_type_event_count_and_delays oracleEx "ab cd".toList
    ⟨by decide, by decide, fun i => by constructor <;> norm_num [oracleEx]⟩

/-- Key application distributes over event concatenation. -/
theorem applyKeys_append (es1 es2 : List KeyEvent) :
    ∀ acc, applyKeys acc (es1 ++ es2) = applyKeys (applyKeys acc es1) es2 := by
  induction es1 with
  | nil => intro acc; rfl
  | cons e es ih =>
    intro acc
    cases e with
    | key c => simpa [applyKeys] using ih (acc ++ [c])
    | backspace => simpa [applyKeys] using ih acc.dropLast

/-- Resolving the keystrokes of one character appends its net
content. -/
theorem applyKeys_charEvents (o : TypingOracle) (i : Nat) (c : Char)
    (acc : List Char) :
    applyKeys acc (charEvents o i c) = acc ++ netChar o i c := by
  unfold charEvents netChar
  by_cases h : typoAt o i c
  · simp only [h, if_true]
    simp only [applyKeys]
    rw [List.dropLast_concat]
    simp
  · simp [h, applyKeys]

/-- Resolving the whole keystroke sequence yields the flattened net
content. -/
theorem applyKeys_humanTypeEvents (o : TypingOracle) :
    ∀ text n acc, applyKeys acc (humanTypeEvents o n text) =
      acc ++ netFlat o n text := by
  intro text
  induction text with
  | nil => intro n acc; simp [humanTypeEvents, netFlat, applyKeys]
  | cons c cs ih =>
    intro n acc
    simp only [humanTypeEvents, netFlat, applyKeys_append,
      applyKeys_charEvents, ih, List.append_assoc]

/-- Net content is at least as long as the remaining input. -/
theorem netFlat_length_ge (o : TypingOracle) :
    ∀ text n, (text : List Char).length ≤ (netFlat o n text).length := by
  intro text
  induction text with
  | nil => intro n; simp [netFlat]
  | cons c cs ih =>
    intro n
    have h1 : 1 ≤ (netChar o n c).length := by
      unfold netChar
      by_cases h : typoAt o n c <;> simp [h]
    have := ih (n + 1)
    simp only [netFlat, List.length_append, List.length_cons]
    omega

/-- When the typo decision fires at position `i` on an alphabetic
character, the net content doubles that character and is strictly longer
than the input. -/
theorem netFlat_typo (o : TypingOracle) :
    ∀ text i n c, text.get? i = some c → typoAt o (n + i) c = true →
      2 ≤ (netFlat o n text).count c ∧
      text.length < (netFlat o n text).length := by
  intro text
  induction text with
  | nil => intro i n c hc ht; simp at hc
  | cons hd tl ih =>
    intro i n c hc ht
    cases i with
    | zero =>
      have hceq : hd = c := by simpa using hc
      subst hceq
      have hT : typoAt o n hd = true := by simpa using ht
      have hrest := netFlat_length_ge o tl (n + 1)
      have hcnt : List.count hd (netChar o n hd) = 2 := by
        simp [netChar, hT]
      have hlen2 : (netChar o n hd).length = 2 := by
        simp [netChar, hT]
      constructor
      · simp only [netFlat, List.count_append, hcnt]
        omega
      · simp only [netFlat, List.length_append, hlen2, List.length_cons]
        omega
    | succ j =>
      simp only [List.get?] at hc
      have ht' : typoAt o ((n + 1) + j) c = true := by
        have : (n + 1) + j = n + (j + 1) := by omega
        rw [this]
        exact ht
      obtain ⟨hcount, hlen⟩ := ih j (n + 1) c hc ht'
      have h1 : 1 ≤ (netChar o n hd).length := by
        unfold netChar
        by_cases h : typoAt o n hd <;> simp [h]
      constructor
      · calc (2 : Nat) ≤ (netFlat o (n + 1) tl).count c := hcount
          _ ≤ (netFlat o n (hd :: tl)).count c := by
            simp [netFlat, List.count_append]
      · simp only [netFlat, List.length_append, List.length_cons]
        omega

/-- C10: whenever a typo is injected at position `i` of the input, the
emitted keystrokes for that character are intended character, wrong
character, BACKSPACE, intended character again — so after resolving
backspaces the net field content holds the intended character twice and
differs from the input text. -/
theorem typo_double_send (o : TypingOracle) (text : List Char) (i : Nat)
    (c : Char) (hc : text.get? i = some c) (ht : typoAt o i c = true) :
    charEvents o i c =
      [.key c, .key (o.wrongChar i), .backspace, .key c] ∧
    netKeystrokes o text = netFlat o 0 text ∧
    2 ≤ (netKeystrokes o text).count c ∧
    netKeystrokes o text ≠ text := by
  have hnet : netKeystrokes o text = netFlat o 0 text := by
    unfold netKeystrokes
    rw [applyKeys_humanTypeEvents o text 0 []]
    simp
  have ht0 : typoAt o (0 + i) c = true := by simpa using ht
  obtain ⟨hcount, hlen⟩ := netFlat_typo o text i 0 c hc ht0
  refine ⟨by simp [charEvents, ht], hnet, ?_, ?_⟩
  · rw [hnet]; exact hcount
  · rw [hnet]
    intro he
    rw [he] at hlen
    omega

/-- Witness for C10: with the always-firing oracle on input "ab", the
typo at position 0 doubles the letter a and the net content differs from
the input. -/
theorem typo_double_send_witness :
    charEvents oracleEx 0 'a' =
      [.key 'a', .key (oracleEx.wrongChar 0), .backspace, .key 'a'] ∧
    netKeystrokes oracleEx ['a', 'b'] = netFlat oracleEx 0 ['a', 'b'] ∧
    2 ≤ (netKeystrokes oracleEx ['a', 'b']).count 'a' ∧
    netKeystrokes oracleEx ['a', 'b'] ≠ ['a', 'b'] :=
  typo_double_send oracleEx ['a', 'b'] 0 'a' rfl (by decide)

end SeekBot
